import Mathlib

/-!
Shallow embedding of the mock-api field-schema normalization and
record-generation pipeline (src/generation.ts and the /api/generate route
handlers).  JavaScript scalar values are modelled by an explicit inductive
type, JS truthiness and the Number()/String()/parseInt coercions are
translated directly, and the external faker library is modelled as an
abstract value source (an `Env` of streams and capability outputs) plus an
explicit object tree for dotted `related` path resolution.
-/

namespace MockApi

/-- JavaScript scalar values that flow through the field pipeline.  `vObj`
stands for an opaque non-scalar object (for example a faker module reached
by a partial `related` path walk); its tag only identifies it. -/
inductive JsVal where
  | vStr (s : String)
  | vNum (q : ℚ)
  | vNaN
  | vBool (b : Bool)
  | vNull
  | vUndefined
  | vObj (tag : String)
deriving DecidableEq, Repr

/-- raw `values` attribute of a field: either a bare scalar or an array of
scalars (mirrors the `Array.isArray(f.values)` test in `normalizeFields`). -/
inductive JsValues where
  | single (v : JsVal)
  | array (l : List JsVal)
deriving DecidableEq, Repr

/-- JS truthiness of a scalar: `""`, `0`, `NaN`, `false`, `null` and
`undefined` are falsy, everything else (objects included) is truthy. -/
def JsVal.truthy : JsVal → Bool
  | .vStr s => s ≠ ""
  | .vNum q => q ≠ 0
  | .vNaN => false
  | .vBool b => b
  | .vNull => false
  | .vUndefined => false
  | .vObj _ => true

/-- JS truthiness of a raw `values` attribute: arrays are objects, hence
always truthy. -/
def JsValues.truthy : JsValues → Bool
  | .single v => v.truthy
  | .array _ => true

/-- digit list to natural number, most significant digit first. -/
def digitsToNat (l : List Char) : ℕ :=
  l.foldl (fun a c => a * 10 + (c.toNat - 48)) 0

/-- JS whitespace for the leading/trailing trim performed by `Number()`
and `parseInt`. -/
def isSpaceChar (c : Char) : Bool :=
  c = ' ' ∨ c = '\t' ∨ c = '\n' ∨ c = '\r'

/-- trim leading and trailing whitespace from a character list. -/
def trimChars (l : List Char) : List Char :=
  ((l.dropWhile isSpaceChar).reverse.dropWhile isSpaceChar).reverse

/-- decimal string parsing as performed by the JS `Number()` conversion on
strings: optional sign, integer part, optional fractional part; `none`
models NaN.  (The empty string converts to 0 in JS; `normalizeFields`
never reaches that case because the empty string is falsy.) -/
def parseDecimal (s : String) : Option ℚ :=
  let t := trimChars s.toList
  if t.isEmpty then some 0 else
  let sign : Bool := t.headD ' ' = '-'
  let rest := if t.headD ' ' = '-' ∨ t.headD ' ' = '+' then t.tail else t
  let intPart := rest.takeWhile (fun c => c ≠ '.')
  let dotPart := rest.dropWhile (fun c => c ≠ '.')
  let fracPart := dotPart.tail
  if intPart.all Char.isDigit ∧ fracPart.all Char.isDigit ∧
      (dotPart.isEmpty ∨ dotPart.headD ' ' = '.') ∧
      (dotPart.isEmpty → rest = intPart) ∧
      ¬(intPart.isEmpty ∧ fracPart.isEmpty) ∧
      (dotPart.length ≤ 1 + fracPart.length) then
    let mag : ℚ :=
      if fracPart.isEmpty then (digitsToNat intPart : ℚ)
      else (digitsToNat intPart : ℚ) +
        (digitsToNat fracPart : ℚ) / ((10 : ℚ) ^ fracPart.length)
    some (if sign then -mag else mag)
  else none

/-- the digit-run stage of `parseInt`: NaN on no digits, otherwise the
signed decimal value. -/
def parseIntCore (sign : Bool) (ds : List Char) : JsVal :=
  if ds.isEmpty then .vNaN
  else .vNum (if sign then -(digitsToNat ds : ℚ) else (digitsToNat ds : ℚ))

/-- JS `parseInt(s, 10)`: trim, optional sign, longest leading digit run;
NaN when no digits are found.  Trailing garbage is ignored, so
`parseInt("5.5")` is `5`. -/
def parseIntJS (s : String) : JsVal :=
  let t := trimChars s.toList
  let sign : Bool := t.headD ' ' = '-'
  let rest := if t.headD ' ' = '-' ∨ t.headD ' ' = '+' then t.tail else t
  parseIntCore sign (rest.takeWhile Char.isDigit)

/-- decimal digits of a natural number, most significant first, with
explicit fuel so the definition reduces structurally. -/
def natDigitsAux : ℕ → ℕ → List Char
  | 0, _ => []
  | fuel + 1, n =>
    if n < 10 then [Char.ofNat (48 + n)]
    else natDigitsAux fuel (n / 10) ++ [Char.ofNat (48 + n % 10)]

/-- decimal digits of a natural number. -/
def natDigits (n : ℕ) : List Char := natDigitsAux (n + 1) n

/-- decimal rendering of a rational for the JS `String()` conversion.
Integers are rendered exactly; non-integral rationals (which no claim
exercises through `String()`) are rendered as a fraction. -/
def ratToJsString (q : ℚ) : String :=
  if q.den = 1 then
    String.mk ((if q.num < 0 then ['-'] else []) ++ natDigits q.num.natAbs)
  else
    String.mk ((if q.num < 0 then ['-'] else []) ++ natDigits q.num.natAbs
      ++ '/' :: natDigits q.den)

/-- JS `String(v)` conversion. -/
def JsVal.jsString : JsVal → String
  | .vStr s => s
  | .vNum q => ratToJsString q
  | .vNaN => "NaN"
  | .vBool true => "true"
  | .vBool false => "false"
  | .vNull => "null"
  | .vUndefined => "undefined"
  | .vObj tag => "[object " ++ tag ++ "]"

/-- JS `Number(v)` conversion (NaN modelled as `vNaN`). -/
def JsVal.toNumber : JsVal → JsVal
  | .vStr s => match parseDecimal s with
    | some q => .vNum q
    | none => .vNaN
  | .vNum q => .vNum q
  | .vNaN => .vNaN
  | .vBool b => .vNum (if b then 1 else 0)
  | .vNull => .vNum 0
  | .vUndefined => .vNaN
  | .vObj _ => .vNaN

/-- one loosely-typed raw field object as it reaches `normalizeFields`:
the eight attributes the pipeline reads, each possibly absent (`none`
covers both a missing key and an `undefined` value). -/
structure RawField where
  name : Option JsVal := none
  type : Option JsVal := none
  related : Option JsVal := none
  values : Option JsValues := none
  min : Option JsVal := none
  max : Option JsVal := none
  length : Option JsVal := none
  format : Option JsVal := none
deriving DecidableEq, Repr

/-- the ternary `x ? Number(x) : undefined` applied by `normalizeFields`
to `min`, `max` and `length`. -/
def coerceNum (o : Option JsVal) : Option JsVal :=
  match o with
  | some v => if v.truthy then some v.toNumber else none
  | none => none

/-- the ternary `x ? String(x) : undefined` applied by `normalizeFields`
to `related` and `format`. -/
def coerceStr (o : Option JsVal) : Option JsVal :=
  match o with
  | some v => if v.truthy then some (.vStr v.jsString) else none
  | none => none

/-- the ternary `x ? (Array.isArray(x) ? x : [x]) : undefined` applied by
`normalizeFields` to `values`. -/
def coerceValues (o : Option JsValues) : Option JsValues :=
  match o with
  | some (.array l) => some (.array l)
  | some (.single v) => if v.truthy then some (.array [v]) else none
  | none => none

/-- `normalizeFields` body for one field (src/generation.ts lines 226-242):
`name` and `type` pass through unchanged, `related`/`format` are
string-coerced when truthy, `values` is wrapped into an array when truthy,
and `min`/`max`/`length` are number-coerced when truthy. -/
def normalizeField (f : RawField) : RawField :=
  { name := f.name
    type := f.type
    related := coerceStr f.related
    values := coerceValues f.values
    min := coerceNum f.min
    max := coerceNum f.max
    length := coerceNum f.length
    format := coerceStr f.format }

/-- `normalizeFields` (src/generation.ts lines 225-243). -/
def normalizeFields (fields : List RawField) : List RawField :=
  fields.map normalizeField

/-- the closed list of supported type tags (`SUPPORTED_TYPES`). -/
def SUPPORTED_TYPES : List String :=
  ["string", "number", "boolean", "date", "enum", "email", "phone", "uuid",
   "url", "image", "address", "city", "country", "zipcode", "firstname",
   "lastname", "fullname", "username", "password", "hexcolor", "credit_card",
   "company", "job_title", "ipv4", "ipv6", "latitude", "longitude",
   "sentence", "paragraph", "word"]

/-- a validated field definition (the `FieldDefinition` interface after
`fieldDefinitionSchema.parse`). -/
structure FieldDefinition where
  name : String
  type : String
  related : Option String := none
  values : Option (List JsVal) := none
  min : Option ℚ := none
  max : Option ℚ := none
  length : Option ℚ := none
  format : Option String := none
deriving DecidableEq, Repr

/-- zod `z.union([z.string(), z.number(), z.boolean()])` membership for one
entry of `values` (z.number() rejects NaN). -/
def isEnumScalar : JsVal → Bool
  | .vStr _ => true
  | .vNum _ => true
  | .vBool _ => true
  | _ => false

/-- zod `z.string().optional()`: absent or `undefined` pass as absent, a
string passes, anything else fails. -/
def validOptStr : Option JsVal → Option (Option String)
  | none => some none
  | some .vUndefined => some none
  | some (.vStr s) => some (some s)
  | some _ => none

/-- zod `z.number().optional()`: absent or `undefined` pass as absent, a
(non-NaN) number passes, anything else fails. -/
def validOptNum : Option JsVal → Option (Option ℚ)
  | none => some none
  | some .vUndefined => some none
  | some (.vNum q) => some (some q)
  | some _ => none

/-- zod `z.array(z.union([...])).optional()` for `values`. -/
def validOptValues : Option JsValues → Option (Option (List JsVal))
  | none => some none
  | some (.single .vUndefined) => some none
  | some (.array l) => if l.all isEnumScalar then some (some l) else none
  | some (.single _) => none

/-- zod `z.string().min(1)` for `name`. -/
def validName : Option JsVal → Option String
  | some (.vStr s) => if s.length ≥ 1 then some s else none
  | _ => none

/-- zod `z.enum([...])` membership for `type`. -/
def validType : Option JsVal → Option String
  | some (.vStr s) => if SUPPORTED_TYPES.contains s then some s else none
  | _ => none

/-- `fieldDefinitionSchema.parse` for one field (src/generation.ts lines
55-95): `name` must be a non-empty string, `type` a member of the fixed
enumeration, and the optional attributes must have the right types. -/
def toFieldDefinition (f : RawField) : Option FieldDefinition :=
  match validName f.name, validType f.type, validOptStr f.related,
      validOptValues f.values, validOptNum f.min, validOptNum f.max,
      validOptNum f.length, validOptStr f.format with
  | some nm, some ty, some rel, some vals, some mn, some mx, some len,
      some fmt =>
    some { name := nm, type := ty, related := rel, values := vals,
           min := mn, max := mx, length := len, format := fmt }
  | _, _, _, _, _, _, _, _ => none

/-- `count: z.number().min(1).max(10000).optional().default(10)`. -/
def validateCount : JsVal → Except String ℚ
  | .vNum q =>
      if 1 ≤ q ∧ q ≤ 10000 then .ok q
      else .error "count out of range"
  | .vUndefined => .ok 10
  | _ => .error "count must be a number"

/-- `seed: z.number().optional()`. -/
def validateSeed : JsVal → Except String (Option ℚ)
  | .vNum q => .ok (some q)
  | .vUndefined => .ok none
  | _ => .error "seed must be a number"

/-- a validated generation request (the result of
`queryParamsSchema.parse`). -/
structure GenerationRequest where
  fields : List FieldDefinition
  count : ℚ
  seed : Option ℚ
deriving DecidableEq, Repr

/-- `queryParamsSchema.parse` (src/generation.ts lines 97-101) applied to
a candidate fields list, count and seed. -/
def validateParams (fields : List RawField) (count seed : JsVal) :
    Except String GenerationRequest :=
  match fields.mapM toFieldDefinition with
  | none => .error "invalid field definition"
  | some fds => do
    let c ← validateCount count
    let s ← validateSeed seed
    .ok { fields := fds, count := c, seed := s }

/-- mutable random state shared by the process: the position in the global
`Math.random()` stream, and the faker stream identity (`fakerBase`, set by
`faker.seed`) together with the position reached inside it. -/
structure RandState where
  mathPos : ℕ
  fakerBase : ℚ
  fakerPos : ℕ
deriving DecidableEq, Repr

/-- advancing the faker stream by one draw (every faker call consumes from
the shared stream). -/
def stepFaker (st : RandState) : RandState :=
  { st with fakerPos := st.fakerPos + 1 }

/-- `faker.seed(s)`: resets the faker stream, leaving the `Math.random()`
stream untouched. -/
def seedFaker (st : RandState) (s : ℚ) : RandState :=
  { st with fakerBase := s, fakerPos := 0 }

/-- the external faker object graph walked by the dotted `related` path
(lines 115-123 of src/generation.ts): plain objects with named children,
zero-argument callables (possibly throwing when invoked), and non-callable
terminal values. -/
inductive FakerTree where
  | leafVal (v : JsVal)
  | leafFn (tag : String)
  | leafFnThrows (tag : String)
  | node (tag : String) (children : List (String × FakerTree))

/-- the `for (const key of keys)` walk: descend while the current value is
an object containing the key, otherwise `break` and keep the value reached
so far. -/
def walkPath : FakerTree → List String → FakerTree
  | t, [] => t
  | t, k :: ks =>
    match t with
    | .node tag cs =>
      match cs.find? (fun p => p.1 == k) with
      | some p => walkPath p.2 ks
      | none => .node tag cs
    | _ => t

/-- the abstract external value source: the `Math.random()` stream, and the
faker library's per-call outputs as pure functions of the call, the seeded
stream identity and the position in it.  `fakerInt` is
`faker.number.int({min, max})`, constrained to land in the range whenever
the bounds are integers with `min <= max`; `alnum` is
`faker.string.alphanumeric(len)`; `typeOut` covers the remaining
parameterless per-type calls of the switch; `fnOut` is the result of
invoking a capability resolved through a `related` path. -/
structure Env where
  mathStream : ℕ → ℚ
  mathStream_nonneg : ∀ n, 0 ≤ mathStream n
  mathStream_lt_one : ∀ n, mathStream n < 1
  fakerInt : ℚ → ℚ → ℚ → ℕ → ℤ
  fakerInt_range : ∀ (lo hi : ℤ) (b : ℚ) (p : ℕ), lo ≤ hi →
      lo ≤ fakerInt lo hi b p ∧ fakerInt lo hi b p ≤ hi
  alnum : ℚ → ℚ → ℕ → String
  typeOut : String → ℚ → ℕ → JsVal
  fakerRoot : FakerTree
  fnOut : String → ℚ → ℕ → JsVal

/-- JS `x || d` on an optional number: `0` (and absence) fall back to the
default.  This is the `min || 0`, `max || 1000`, `length || 10` idiom of
the type-based handlers. -/
def jsOr (o : Option ℚ) (d : ℚ) : ℚ :=
  match o with
  | some q => if q = 0 then d else q
  | none => d

/-- the type tags handled by a dedicated parameterless switch case
(every supported tag except `string`, `number` and the absent `enum`
case). -/
def OTHER_HANDLED : List String :=
  ["boolean", "date", "email", "phone", "uuid", "url", "image", "address",
   "city", "country", "zipcode", "firstname", "lastname", "fullname",
   "username", "password", "hexcolor", "credit_card", "company",
   "job_title", "ipv4", "ipv6", "latitude", "longitude", "sentence",
   "paragraph", "word"]

/-- the `switch (type)` of `generateFieldValue` (lines 134-198): `string`
and the default case draw an alphanumeric string (`length || 10`, default
10), `number` draws an integer with `min || 0` and `max || 1000`, and each
remaining tag maps to one parameterless faker call. -/
def typeSwitch (env : Env) (f : FieldDefinition) (st : RandState) :
    JsVal × RandState :=
  if f.type = "string" then
    (.vStr (env.alnum (jsOr f.length 10) st.fakerBase st.fakerPos), stepFaker st)
  else if f.type = "number" then
    (.vNum (env.fakerInt (jsOr f.min 0) (jsOr f.max 1000)
        st.fakerBase st.fakerPos), stepFaker st)
  else if OTHER_HANDLED.contains f.type then
    (env.typeOut f.type st.fakerBase st.fakerPos, stepFaker st)
  else
    (.vStr (env.alnum 10 st.fakerBase st.fakerPos), stepFaker st)

/-- splitting a character list on a separator character, JS
`String.prototype.split` style: `"a.b"` gives `["a", "b"]`, the empty
string gives `[""]`, a trailing separator yields a trailing empty
component. -/
def splitOnChar (c : Char) : List Char → List (List Char)
  | [] => [[]]
  | x :: xs =>
    let r := splitOnChar c xs
    if x = c then [] :: r
    else
      match r with
      | [] => [[x]]
      | h :: t => (x :: h) :: t

/-- JS `related.split('.')`. -/
def splitDots (s : String) : List String :=
  (splitOnChar '.' s.toList).map String.mk

/-- the `related` block of `generateFieldValue` (lines 113-131): walk the
dotted path through the faker graph; if the walk ends on a callable,
invoke it (consuming one faker draw); if it ends on anything else
(including a partial walk that broke on a missing segment), return that
value as-is; if the invocation throws, the catch logs and execution falls
through to the type switch. -/
def resolveRelated (env : Env) (f : FieldDefinition) (rel : String)
    (st : RandState) : JsVal × RandState :=
  match walkPath env.fakerRoot (splitDots rel) with
  | .leafFn tag => (env.fnOut tag st.fakerBase st.fakerPos, stepFaker st)
  | .leafFnThrows _ => typeSwitch env f st
  | .leafVal v => (v, st)
  | .node tag _ => (.vObj tag, st)

/-- `generateFieldValue` after the enum branch declined: the `related`
check, then the type switch. -/
def afterEnum (env : Env) (f : FieldDefinition) (st : RandState) :
    JsVal × RandState :=
  match f.related with
  | some rel => resolveRelated env f rel st
  | none => typeSwitch env f st

/-- `Math.floor(r * n)` as the enum index. -/
def enumIndex (r : ℚ) (n : ℕ) : ℕ := (⌊r * (n : ℚ)⌋).toNat

/-- `generateFieldValue` (src/generation.ts lines 104-199): the enum
branch (`type === 'enum' && values && values.length > 0`) picks
`values[Math.floor(Math.random() * values.length)]` from the global
`Math.random()` stream; otherwise the `related` block and the type switch
run on the faker stream. -/
def generateFieldValue (env : Env) (f : FieldDefinition) (st : RandState) :
    JsVal × RandState :=
  match f.values with
  | some vs =>
    if f.type = "enum" ∧ 0 < vs.length then
      (vs.getD (enumIndex (env.mathStream st.mathPos) vs.length) .vUndefined,
       { st with mathPos := st.mathPos + 1 })
    else afterEnum env f st
  | none => afterEnum env f st

/-- a generated row: a JS object as an ordered association list. -/
abbrev Row := List (String × JsVal)

/-- JS object assignment `row[k] = v`: update the value in place when the
key already exists (keeping its position), otherwise append the pair. -/
def rowSet (row : Row) (k : String) (v : JsVal) : Row :=
  if row.any (fun p => p.1 == k) then
    row.map (fun p => if p.1 == k then (k, v) else p)
  else row ++ [(k, v)]

/-- key order of a row. -/
def rowKeys (row : Row) : List String := row.map Prod.fst

/-- property read `row[k]`. -/
def rowLookup (row : Row) (k : String) : Option JsVal :=
  (row.find? (fun p => p.1 == k)).map Prod.snd

/-- the inner `for (const field of fields)` loop of `generateMockData`:
one `generateFieldValue` call per field, written into the row object in
schema order. -/
def buildRow (env : Env) :
    List FieldDefinition → Row → RandState → Row × RandState
  | [], row, st => (row, st)
  | f :: fs, row, st =>
    let p := generateFieldValue env f st
    buildRow env fs (rowSet row f.name p.1) p.2

/-- the outer `for (let i = 0; i < count; i++)` loop, unrolled over the
number of iterations. -/
def genRows (env : Env) (fields : List FieldDefinition) :
    ℕ → RandState → List Row × RandState
  | 0, st => ([], st)
  | n + 1, st =>
    let p := buildRow env fields [] st
    let rest := genRows env fields n p.2
    (p.1 :: rest.1, rest.2)

/-- number of iterations of `for (let i = 0; i < count; i++)` for a
(possibly non-integral) numeric count. -/
def iterCount (c : ℚ) : ℕ := if c ≤ 0 then 0 else (⌈c⌉).toNat

/-- `generateMockData` (src/generation.ts lines 201-222): seed the faker
stream once if a seed is present, then produce the rows. -/
def generateMockData (env : Env) (req : GenerationRequest)
    (st : RandState) : List Row × RandState :=
  let st1 := match req.seed with
    | some s => seedFaker st s
    | none => st
  genRows env req.fields (iterCount req.count) st1

/-- shape of the `fields` parameter after one of the two decoders ran: a
native array of field-like objects, or some other value. -/
inductive FieldsShape where
  | arr (l : List RawField)
  | notArr (v : JsVal)

/-- the raw inputs the GET /api/generate handler reads: what the
array-aware qs parser produced for `fields`/`count`/`seed`, and the plain
query values seen by the framework. -/
structure GetQuery where
  qsFields : Option FieldsShape := none
  rawFields : Option JsVal := none
  qsCount : Option JsVal := none
  rawCount : Option String := none
  qsSeed : Option JsVal := none
  rawSeed : Option String := none

/-- truthiness of an optional scalar (absent is falsy). -/
def truthyOpt (o : Option JsVal) : Bool :=
  match o with
  | some v => v.truthy
  | none => false

/-- fields resolution of the GET handler (route lines 40-73): use the
qs-parsed array (already normalized once) when it is an array; otherwise
JSON-parse the raw string value, failing on a parse error; a non-array
result (or a non-string raw value) makes the subsequent
`normalizeFields(fields).map` call throw a TypeError, which the handler
catches.  The returned list still undergoes the unconditional
`normalizeFields` of line 69. -/
def resolveGetFields (jsonDecode : String → Option FieldsShape)
    (q : GetQuery) : Except String (List RawField) :=
  match q.qsFields with
  | some (.arr l) => .ok (normalizeFields l)
  | _ =>
    match q.rawFields with
    | some (.vStr s) =>
      match jsonDecode s with
      | none => .error "Invalid fields format. Must be a JSON array."
      | some (.arr l) => .ok l
      | some (.notArr _) => .error "TypeError: fields.map is not a function"
    | _ => .error "TypeError: fields.map is not a function"

/-- count candidate of the GET handler (route lines 78-82):
`parsedWithQS.count ? parseInt(String(parsedWithQS.count), 10) :
query.count ? Number.parseInt(query.count, 10) : 10`. -/
def getCountValue (q : GetQuery) : JsVal :=
  if truthyOpt q.qsCount then parseIntJS ((q.qsCount.getD .vUndefined).jsString)
  else
    match q.rawCount with
    | some s => if s ≠ "" then parseIntJS s else .vNum 10
    | none => .vNum 10

/-- seed candidate of the GET handler (route lines 83-87), `undefined`
when absent. -/
def getSeedValue (q : GetQuery) : JsVal :=
  if truthyOpt q.qsSeed then parseIntJS ((q.qsSeed.getD .vUndefined).jsString)
  else
    match q.rawSeed with
    | some s => if s ≠ "" then parseIntJS s else .vUndefined
    | none => .vUndefined

/-- the GET handler pipeline up to (and including) validation: resolve
the fields encoding, normalize (line 69), then
`queryParamsSchema.parse`. -/
def getPipeline (jsonDecode : String → Option FieldsShape) (q : GetQuery) :
    Except String GenerationRequest := do
  let raw ← resolveGetFields jsonDecode q
  validateParams (normalizeFields raw) (getCountValue q) (getSeedValue q)

/-- the structured handler result: the success envelope with the row
count and data, or the catch-block failure envelope with `error` and
`details`. -/
inductive Response where
  | success (count : ℕ) (data : List Row)
  | failure (error : String) (details : String)
deriving DecidableEq, Repr

/-- the GET /api/generate handler (route lines 36-107): any throw before
generation is caught and returned as the failure envelope; otherwise the
validated request is generated and wrapped in the success envelope. -/
def getHandler (env : Env) (jsonDecode : String → Option FieldsShape)
    (q : GetQuery) (st : RandState) : Response × RandState :=
  match getPipeline jsonDecode q with
  | .error msg => (.failure "Failed to generate mock data" msg, st)
  | .ok req =>
    let p := generateMockData env req st
    (.success p.1.length p.1, p.2)

/-- the parts of a POST body the count/seed determination reads. -/
structure PostBody where
  count : Option JsVal := none
  seed : Option JsVal := none

/-- count candidate of the POST handler (route lines 196-201):
`body && body.count !== undefined ? Number(body.count) : query.count ?
parseInt(query.count, 10) : 10`. -/
def postCountValue (body : Option PostBody) (queryCount : Option String) :
    JsVal :=
  match body with
  | some b =>
    match b.count with
    | some v => v.toNumber
    | none =>
      match queryCount with
      | some s => if s ≠ "" then parseIntJS s else .vNum 10
      | none => .vNum 10
  | none =>
    match queryCount with
    | some s => if s ≠ "" then parseIntJS s else .vNum 10
    | none => .vNum 10

/-- a concrete value source used to instantiate hypotheses on small
inputs: the `Math.random()` stream alternates between `0` and `1/2`,
integer draws return the lower bound, and the faker graph contains one
capability group. -/
def env0 : Env where
  mathStream := fun n => if n % 2 = 0 then 0 else 1/2
  mathStream_nonneg := by
    intro n; by_cases h : n % 2 = 0 <;> simp [h]
  mathStream_lt_one := by
    intro n; by_cases h : n % 2 = 0 <;> norm_num [h]
  fakerInt := fun lo _ _ _ => ⌈lo⌉
  fakerInt_range := by
    intro lo hi b p h
    constructor
    · simp
    · simpa using h
  alnum := fun _ _ _ => "A"
  typeOut := fun t _ p => .vStr (t ++ Nat.repr p)
  fakerRoot := .node "faker"
    [("vehicle", .node "vehicle" [("bicycle", .leafFn "vehicle.bicycle")])]
  fnOut := fun tag _ _ => .vStr tag

/-- a variant value source whose bounded integer draw returns the upper
bound of the requested range. -/
def env1 : Env :=
  { env0 with
    fakerInt := fun _ hi _ _ => ⌊hi⌋
    fakerInt_range := by
      intro lo hi b p h
      constructor
      · simpa using h
      · simp }

/-- an initial random state. -/
def st0 : RandState := { mathPos := 0, fakerBase := 0, fakerPos := 0 }

/-- the enum index is within bounds whenever the random draw lies in
[0, 1) and the list is non-empty. -/
lemma enumIndex_lt (r : ℚ) (n : ℕ) (h0 : 0 ≤ r) (h1 : r < 1)
    (hn : 0 < n) : enumIndex r n < n := by
  unfold enumIndex
  have hnq : (0 : ℚ) < (n : ℚ) := by exact_mod_cast hn
  have hmul : r * (n : ℚ) < (n : ℚ) := by
    calc r * (n : ℚ) < 1 * (n : ℚ) := by
          exact mul_lt_mul_of_pos_right h1 hnq
      _ = (n : ℚ) := one_mul _
  have hfl : ⌊r * (n : ℚ)⌋ < (n : ℤ) := by
    apply Int.floor_lt.mpr
    exact_mod_cast hmul
  have hnn : (0 : ℤ) ≤ ⌊r * (n : ℚ)⌋ :=
    Int.floor_nonneg.mpr (mul_nonneg h0 (le_of_lt hnq))
  omega

/-- C5: for every field of type `enum` with a non-empty `values`
sequence, `generateFieldValue` takes the enum branch first — regardless
of any `related` attribute and before the type switch — and returns
`values[Math.floor(r * values.length)]` for the next global random draw
`r`; the chosen value is always a member of `values`, and only the
`Math.random()` position advances. -/
theorem enum_field_selects_member (env : Env) (f : FieldDefinition)
    (vs : List JsVal) (st : RandState)
    (hty : f.type = "enum") (hvs : f.values = some vs) (hne : vs ≠ []) :
    generateFieldValue env f st =
      (vs.getD (enumIndex (env.mathStream st.mathPos) vs.length) .vUndefined,
        { st with mathPos := st.mathPos + 1 }) ∧
    (generateFieldValue env f st).1 ∈ vs := by
  have hlen : 0 < vs.length := List.length_pos.mpr hne
  have heq : generateFieldValue env f st =
      (vs.getD (enumIndex (env.mathStream st.mathPos) vs.length) .vUndefined,
        { st with mathPos := st.mathPos + 1 }) := by
    unfold generateFieldValue
    rw [hvs]
    simp only [if_pos (And.intro hty hlen)]
  refine ⟨heq, ?_⟩
  rw [heq]
  have hidx := enumIndex_lt (env.mathStream st.mathPos) vs.length
    (env.mathStream_nonneg _) (env.mathStream_lt_one _) hlen
  rw [List.getD_eq_getElem _ _ hidx]
  exact List.getElem_mem hidx

/-- a concrete enum field whose `related` attribute is set, showing the
enum branch wins the dispatch. -/
def enumField : FieldDefinition :=
  { name := "role", type := "enum", related := some "vehicle.bicycle",
    values := some [.vStr "admin", .vStr "user"] }

/-- witness for C5 at a concrete field, value source and state. -/
theorem enum_field_selects_member_witness :
    (generateFieldValue env0 enumField st0).1 ∈
      [JsVal.vStr "admin", JsVal.vStr "user"] :=
  (enum_field_selects_member env0 enumField
    [.vStr "admin", .vStr "user"] st0 rfl rfl (by decide)).2

/-- C2 (amended): for a `number` field without a `related` override, the
generated value is an integer within the effective bounds
`[min || 0, max || 1000]` whenever those are integers in order — JS
truthiness makes `0` fall back to the default, so a present `max = 0`
widens the upper bound to 1000 instead of capping at 0. -/
theorem number_field_in_range (env : Env) (f : FieldDefinition)
    (st : RandState) (mi Mi : ℤ)
    (hty : f.type = "number") (hrel : f.related = none)
    (hmin : jsOr f.min 0 = (mi : ℚ)) (hmax : jsOr f.max 1000 = (Mi : ℚ))
    (hle : mi ≤ Mi) :
    ∃ k : ℤ, (generateFieldValue env f st).1 = .vNum (k : ℚ) ∧
      (mi : ℚ) ≤ (k : ℚ) ∧ (k : ℚ) ≤ (Mi : ℚ) := by
  have hts : typeSwitch env f st =
      (.vNum (env.fakerInt (jsOr f.min 0) (jsOr f.max 1000)
          st.fakerBase st.fakerPos), stepFaker st) := by
    unfold typeSwitch
    rw [if_neg (by rw [hty]; decide), if_pos hty]
  have hgen : generateFieldValue env f st = typeSwitch env f st := by
    unfold generateFieldValue afterEnum
    rw [hrel]
    cases hv : f.values with
    | none => rfl
    | some vs =>
      exact if_neg (fun hc => by
        rw [hty] at hc
        exact absurd hc.1 (by decide))
  refine ⟨env.fakerInt (jsOr f.min 0) (jsOr f.max 1000)
      st.fakerBase st.fakerPos, ?_, ?_, ?_⟩
  · rw [hgen, hts]
  · have := (env.fakerInt_range mi Mi st.fakerBase st.fakerPos hle).1
    rw [hmin, hmax]
    exact_mod_cast this
  · have := (env.fakerInt_range mi Mi st.fakerBase st.fakerPos hle).2
    rw [hmin, hmax]
    exact_mod_cast this

/-- a number field with both bounds present and equal to zero. -/
def numZeroField : FieldDefinition :=
  { name := "n", type := "number", min := some 0, max := some 0 }

/-- counterexample to C2 as stated: with `min = 0`, `max = 0` (so
`min <= max`, both present), the code passes `max || 1000 = 1000` to the
integer draw, and a value source returning the upper bound produces
`1000`, violating `v <= max = 0`. -/
theorem number_range_counterexample :
    numZeroField.min = some 0 ∧ numZeroField.max = some 0 ∧
    (generateFieldValue env1 numZeroField st0).1 = .vNum 1000 := by
  refine ⟨rfl, rfl, ?_⟩
  show (typeSwitch env1 numZeroField st0).1 = _
  rw [show typeSwitch env1 numZeroField st0 =
      (.vNum (env1.fakerInt (jsOr numZeroField.min 0)
          (jsOr numZeroField.max 1000) st0.fakerBase st0.fakerPos),
        stepFaker st0) from rfl]
  show JsVal.vNum ((⌊jsOr numZeroField.max 1000⌋ : ℤ) : ℚ) = .vNum 1000
  norm_num [jsOr, numZeroField]

/-- witness for C2 (amended) at a concrete field with `min = 5`,
`max = 9`. -/
theorem number_field_in_range_witness :
    ∃ k : ℤ, (generateFieldValue env0
        { name := "age", type := "number", min := some 5, max := some 9 }
        st0).1 = .vNum (k : ℚ) ∧ (5 : ℚ) ≤ (k : ℚ) ∧ (k : ℚ) ≤ (9 : ℚ) :=
  number_field_in_range env0
    { name := "age", type := "number", min := some 5, max := some 9 }
    st0 5 9 rfl rfl (by norm_num [jsOr]) (by norm_num [jsOr]) (by decide)

/-- C3 (amended): for a non-enum field with a `related` path, resolution
never aborts the row or the batch, but a failed walk does NOT fall
through to the type-based handler — the walk's `break` leaves the last
reached value, which is returned as-is (a partial walk returns the
intermediate object, a full walk ending on a non-callable returns that
value); only a thrown invocation falls through to the type switch, and
the batch keeps its full length in every case. -/
theorem related_resolution_behavior (env : Env) (f : FieldDefinition)
    (rel : String) (st : RandState)
    (hrel : f.related = some rel) (hty : f.type ≠ "enum") :
    generateFieldValue env f st = resolveRelated env f rel st ∧
    (∀ tag cs, walkPath env.fakerRoot (splitDots rel) = .node tag cs →
      generateFieldValue env f st = (.vObj tag, st)) ∧
    (∀ v, walkPath env.fakerRoot (splitDots rel) = .leafVal v →
      generateFieldValue env f st = (v, st)) ∧
    (∀ tag, walkPath env.fakerRoot (splitDots rel) = .leafFnThrows tag →
      generateFieldValue env f st = typeSwitch env f st) ∧
    (∀ n st', (genRows env [f] n st').1.length = n) := by
  have hgen : generateFieldValue env f st = resolveRelated env f rel st := by
    unfold generateFieldValue afterEnum
    rw [hrel]
    cases hv : f.values with
    | none => rfl
    | some vs =>
      exact if_neg (fun hc => hty hc.1)
  refine ⟨hgen, ?_, ?_, ?_, ?_⟩
  · intro tag cs hw
    rw [hgen]
    unfold resolveRelated
    rw [hw]
  · intro v hw
    rw [hgen]
    unfold resolveRelated
    rw [hw]
  · intro tag hw
    rw [hgen]
    unfold resolveRelated
    rw [hw]
  · intro n
    induction n with
    | zero => intro st'; rfl
    | succ m ih =>
      intro st'
      show ((buildRow env [f] [] st').1 ::
        (genRows env [f] m (buildRow env [f] [] st').2).1).length = m + 1
      rw [List.length_cons, ih]

/-- a field whose `related` path misses at its second segment. -/
def relMissField : FieldDefinition :=
  { name := "v", type := "string", related := some "vehicle.nonexistent" }

/-- counterexample to C3 as stated: under `env0`, the path
`vehicle.nonexistent` fails at its second segment, and the generator
returns the intermediate `vehicle` module object instead of falling
through to the `string` type handler (which would produce `"A"`). -/
theorem related_fallback_counterexample :
    (generateFieldValue env0 relMissField st0).1 = .vObj "vehicle" ∧
    (typeSwitch env0 relMissField st0).1 = .vStr "A" ∧
    (generateFieldValue env0 relMissField st0).1 ≠
      (typeSwitch env0 relMissField st0).1 := by
  refine ⟨?_, rfl, ?_⟩
  · rfl
  · decide

/-- witness for C3 (amended): applying the characterization at the
concrete missing path shows the intermediate object is returned and a
two-row batch still has two rows. -/
theorem related_resolution_behavior_witness :
    generateFieldValue env0 relMissField st0 = (.vObj "vehicle", st0) ∧
    (genRows env0 [relMissField] 2 st0).1.length = 2 := by
  have h := related_resolution_behavior env0 relMissField
    "vehicle.nonexistent" st0 rfl (by decide)
  exact ⟨h.2.1 "vehicle"
    [("bicycle", FakerTree.leafFn "vehicle.bicycle")] rfl, h.2.2.2.2 2 st0⟩

/-- decimal digit lists are never empty (given fuel). -/
lemma natDigitsAux_ne_nil (fuel n : ℕ) : natDigitsAux (fuel + 1) n ≠ [] := by
  unfold natDigitsAux
  by_cases h : n < 10
  · simp [h]
  · simp [h]

/-- `natDigits` is never empty. -/
lemma natDigits_ne_nil (n : ℕ) : natDigits n ≠ [] :=
  natDigitsAux_ne_nil n n

/-- the JS `String()` conversion of a truthy value is never the empty
string. -/
lemma jsString_ne_empty (v : JsVal) (h : v.truthy = true) :
    v.jsString ≠ "" := by
  cases v with
  | vStr s =>
    simp [JsVal.truthy] at h
    simpa [JsVal.jsString] using h
  | vNum q =>
    simp only [JsVal.jsString, ratToJsString]
    by_cases hd : q.den = 1 <;> by_cases hs : q.num < 0 <;>
      simp [hd, hs, String.ext_iff, natDigits_ne_nil]
  | vNaN => simp [JsVal.truthy] at h
  | vBool b =>
    simp [JsVal.truthy] at h
    simp [JsVal.jsString, h]
  | vNull => simp [JsVal.truthy] at h
  | vUndefined => simp [JsVal.truthy] at h
  | vObj tag =>
    simp only [JsVal.jsString]
    intro hc
    have hlen := congrArg String.length hc
    simp [String.length_append] at hlen
    exact absurd hlen.1.1 (by decide)

/-- `Number()` only produces a number or NaN. -/
lemma toNumber_shape (v : JsVal) :
    (∃ q : ℚ, v.toNumber = .vNum q) ∨ v.toNumber = .vNaN := by
  cases v with
  | vStr s =>
    simp only [JsVal.toNumber]
    cases parseDecimal s with
    | none => exact Or.inr rfl
    | some q => exact Or.inl ⟨q, rfl⟩
  | vNum q => exact Or.inl ⟨q, rfl⟩
  | vNaN => exact Or.inr rfl
  | vBool b => exact Or.inl ⟨if b then 1 else 0, rfl⟩
  | vNull => exact Or.inl ⟨0, rfl⟩
  | vUndefined => exact Or.inr rfl
  | vObj tag => exact Or.inr rfl

/-- `String()` of a string is itself. -/
lemma jsString_vStr (s : String) : (JsVal.vStr s).jsString = s := rfl

/-- truthiness of a string value is non-emptiness. -/
lemma truthy_vStr (s : String) :
    (JsVal.vStr s).truthy = decide (s ≠ "") := rfl

/-- truthiness of a number value is being non-zero. -/
lemma truthy_vNum (q : ℚ) :
    (JsVal.vNum q).truthy = decide (q ≠ 0) := rfl

/-- string coercion is idempotent: a second pass sees a non-empty string
and passes it through. -/
lemma coerceStr_idem (o : Option JsVal) :
    coerceStr (coerceStr o) = coerceStr o := by
  cases o with
  | none => rfl
  | some v =>
    by_cases hv : v.truthy
    · have hne := jsString_ne_empty v hv
      rw [show coerceStr (some v) = some (.vStr v.jsString) from by
        simp [coerceStr, hv]]
      simp [coerceStr, truthy_vStr, jsString_vStr, hne]
    · simp [coerceStr, hv]

/-- values coercion is idempotent: the second pass always sees an array
(truthy) and keeps it. -/
lemma coerceValues_idem (o : Option JsValues) :
    coerceValues (coerceValues o) = coerceValues o := by
  cases o with
  | none => rfl
  | some vs =>
    cases vs with
    | array l => rfl
    | single v =>
      by_cases hv : v.truthy
      · simp [coerceValues, hv]
      · simp [coerceValues, hv]

/-- numeric coercion is idempotent unless the first pass produced the
falsy numbers `0` or NaN, which the second pass drops. -/
lemma coerceNum_idem (o : Option JsVal)
    (h0 : coerceNum o ≠ some (.vNum 0)) (hn : coerceNum o ≠ some .vNaN) :
    coerceNum (coerceNum o) = coerceNum o := by
  cases o with
  | none => rfl
  | some v =>
    by_cases hv : v.truthy
    · have h1 : coerceNum (some v) = some v.toNumber := by
        simp [coerceNum, hv]
      rw [h1] at h0 hn ⊢
      rcases toNumber_shape v with ⟨q, hq⟩ | hq
      · rw [hq] at h0 ⊢
        have hq0 : q ≠ 0 := fun he => h0 (by rw [he])
        simp [coerceNum, JsVal.truthy, JsVal.toNumber, hq0]
      · exact absurd (by rw [hq]) hn
    · simp [coerceNum, hv]

/-- C10 (amended): `normalizeFields` is idempotent on every list of raw
fields whose numeric attributes do not coerce to the falsy numbers `0`
or NaN; when a present attribute coerces to `0` (for example the raw
string "0") or to NaN, the second pass drops it, so full idempotence
fails. -/
theorem normalizeFields_idempotent_on_stable (l : List RawField)
    (h : ∀ f ∈ l,
      (coerceNum f.min ≠ some (.vNum 0) ∧ coerceNum f.min ≠ some .vNaN) ∧
      (coerceNum f.max ≠ some (.vNum 0) ∧ coerceNum f.max ≠ some .vNaN) ∧
      (coerceNum f.length ≠ some (.vNum 0) ∧
        coerceNum f.length ≠ some .vNaN)) :
    normalizeFields (normalizeFields l) = normalizeFields l := by
  unfold normalizeFields
  rw [List.map_map]
  apply List.map_congr_left
  intro f hf
  obtain ⟨⟨hmin0, hminN⟩, ⟨hmax0, hmaxN⟩, ⟨hlen0, hlenN⟩⟩ := h f hf
  show normalizeField (normalizeField f) = normalizeField f
  simp only [normalizeField, coerceStr_idem, coerceValues_idem,
    coerceNum_idem f.min hmin0 hminN, coerceNum_idem f.max hmax0 hmaxN,
    coerceNum_idem f.length hlen0 hlenN]

/-- a raw field whose `min` arrives as the numeric string "0". -/
def zeroStrMinRaw : RawField :=
  { name := some (.vStr "n"), type := some (.vStr "string"),
    min := some (.vStr "0") }

/-- counterexample to C10 as stated: one normalization pass coerces
`min: "0"` to the number `0`, and the second pass drops it (0 is falsy),
so `normalizeFields` applied twice differs from one application. -/
theorem normalizeFields_not_idempotent :
    normalizeFields (normalizeFields [zeroStrMinRaw]) ≠
      normalizeFields [zeroStrMinRaw] := by
  decide

/-- witness for C10 (amended) on a concrete stable list. -/
theorem normalizeFields_idempotent_witness :
    normalizeFields (normalizeFields
      [{ name := some (.vStr "a"), type := some (.vStr "number"),
         min := some (.vStr "5"), values := some (.single (.vStr "x")) }]) =
    normalizeFields
      [{ name := some (.vStr "a"), type := some (.vStr "number"),
         min := some (.vStr "5"), values := some (.single (.vStr "x")) }] :=
  normalizeFields_idempotent_on_stable _ (by decide)

/-- C4 (amended): the normalizer coerces `min`/`max`/`length` to numbers
whenever they are present and truthy — so non-empty numeric strings
(including "0") are parsed, but a present numeric `0` (or `NaN`, or the
empty string, or absence) maps to absent; `related`/`format` are
string-coerced when truthy; a truthy non-sequence `values` is wrapped
into a single-element sequence and a sequence is kept as-is. -/
theorem normalizer_attribute_coercion (f : RawField) :
    ((∀ s, s ≠ "" → f.min = some (.vStr s) →
        (normalizeField f).min = some ((JsVal.vStr s).toNumber)) ∧
      (∀ q : ℚ, q ≠ 0 → f.min = some (.vNum q) →
        (normalizeField f).min = some (.vNum q)) ∧
      (f.min = none ∨ f.min = some (.vNum 0) ∨ f.min = some (.vStr "") →
        (normalizeField f).min = none)) ∧
    ((∀ s, s ≠ "" → f.max = some (.vStr s) →
        (normalizeField f).max = some ((JsVal.vStr s).toNumber)) ∧
      (∀ q : ℚ, q ≠ 0 → f.max = some (.vNum q) →
        (normalizeField f).max = some (.vNum q)) ∧
      (f.max = none ∨ f.max = some (.vNum 0) ∨ f.max = some (.vStr "") →
        (normalizeField f).max = none)) ∧
    ((∀ s, s ≠ "" → f.length = some (.vStr s) →
        (normalizeField f).length = some ((JsVal.vStr s).toNumber)) ∧
      (∀ q : ℚ, q ≠ 0 → f.length = some (.vNum q) →
        (normalizeField f).length = some (.vNum q)) ∧
      (f.length = none ∨ f.length = some (.vNum 0) ∨
          f.length = some (.vStr "") →
        (normalizeField f).length = none)) ∧
    (∀ v, v.truthy = true → f.related = some v →
      (normalizeField f).related = some (.vStr v.jsString)) ∧
    (∀ v, v.truthy = true → f.format = some v →
      (normalizeField f).format = some (.vStr v.jsString)) ∧
    (∀ v, v.truthy = true → f.values = some (.single v) →
      (normalizeField f).values = some (.array [v])) ∧
    (∀ l, f.values = some (.array l) →
      (normalizeField f).values = some (.array l)) := by
  have hnum : ∀ o : Option JsVal,
      ((∀ s, s ≠ "" → o = some (.vStr s) →
          coerceNum o = some ((JsVal.vStr s).toNumber)) ∧
        (∀ q : ℚ, q ≠ 0 → o = some (.vNum q) →
          coerceNum o = some (.vNum q)) ∧
        (o = none ∨ o = some (.vNum 0) ∨ o = some (.vStr "") →
          coerceNum o = none)) := by
    intro o
    refine ⟨?_, ?_, ?_⟩
    · intro s hs ho
      subst ho
      simp [coerceNum, truthy_vStr, hs]
    · intro q hq ho
      subst ho
      simp [coerceNum, truthy_vNum, hq, JsVal.toNumber]
    · rintro (ho | ho | ho) <;> subst ho <;> simp [coerceNum, JsVal.truthy]
  refine ⟨hnum f.min, hnum f.max, hnum f.length, ?_, ?_, ?_, ?_⟩
  · intro v hv ho
    show coerceStr f.related = _
    rw [ho]
    simp [coerceStr, hv]
  · intro v hv ho
    show coerceStr f.format = _
    rw [ho]
    simp [coerceStr, hv]
  · intro v hv ho
    show coerceValues f.values = _
    rw [ho]
    simp [coerceValues, hv]
  · intro l ho
    show coerceValues f.values = _
    rw [ho]
    rfl

/-- a raw field whose `min` is the (present) number zero. -/
def zeroNumMinRaw : RawField :=
  { name := some (.vStr "n"), type := some (.vStr "number"),
    min := some (.vNum 0) }

/-- counterexample to C4 as stated: a present numeric `min = 0` is NOT
coerced — JS truthiness drops it, so the normalized field has no `min`
at all. -/
theorem normalizer_drops_zero_counterexample :
    zeroNumMinRaw.min = some (.vNum 0) ∧
    normalizeFields [zeroNumMinRaw] =
      [{ name := some (.vStr "n"), type := some (.vStr "number") }] := by
  exact ⟨rfl, by decide⟩

/-- a raw field exercising the numeric-string and scalar-values
coercions. -/
def coercionSampleRaw : RawField :=
  { name := some (.vStr "a"), type := some (.vStr "number"),
    min := some (.vStr "5"), max := some (.vStr "0"),
    values := some (.single (.vBool true)) }

/-- witness for C4 (amended): the numeric string "5" is parsed and a bare
scalar `values` is wrapped into a one-element sequence. -/
theorem normalizer_attribute_coercion_witness :
    (normalizeField coercionSampleRaw).min =
      some ((JsVal.vStr "5").toNumber) ∧
    (normalizeField coercionSampleRaw).values =
      some (.array [.vBool true]) :=
  ⟨(normalizer_attribute_coercion coercionSampleRaw).1.1 "5" (by decide) rfl,
    (normalizer_attribute_coercion coercionSampleRaw).2.2.2.2.2.1
      (.vBool true) rfl rfl⟩

/-- accumulate keys, keeping only the first occurrence of each (the key
order of a JS object built by repeated assignment). -/
def dedupInto (acc : List String) : List String → List String
  | [] => acc
  | k :: ks => dedupInto (if k ∈ acc then acc else acc ++ [k]) ks

/-- first-occurrence deduplication of a key list. -/
def dedupFirst (names : List String) : List String := dedupInto [] names

/-- assignment to an existing key keeps the key order; a fresh key is
appended. -/
lemma rowKeys_rowSet (row : Row) (k : String) (v : JsVal) :
    rowKeys (rowSet row k v) =
      if k ∈ rowKeys row then rowKeys row else rowKeys row ++ [k] := by
  unfold rowSet
  by_cases h : row.any (fun p => p.1 == k) = true
  · rw [if_pos h]
    have hmem : k ∈ rowKeys row := by
      rcases List.any_eq_true.mp h with ⟨p, hp, hbeq⟩
      exact List.mem_map.mpr ⟨p, hp, beq_iff_eq.mp hbeq⟩
    rw [if_pos hmem]
    show List.map Prod.fst (row.map _) = _
    rw [List.map_map]
    apply List.map_congr_left
    intro p hp
    by_cases hpk : (p.1 == k) = true
    · simp only [Function.comp, hpk, if_true]
      exact (beq_iff_eq.mp hpk).symm
    · simp only [Function.comp, hpk]
      rfl
  · rw [if_neg h]
    have hmem : k ∉ rowKeys row := by
      intro hc
      rcases List.mem_map.mp hc with ⟨p, hp, hpk⟩
      exact h (List.any_eq_true.mpr ⟨p, hp, beq_iff_eq.mpr hpk⟩)
    rw [if_neg hmem]
    show List.map Prod.fst (row ++ [(k, v)]) = _
    rw [List.map_append]
    rfl

/-- the mapped update of an existing key is found and carries the new
value. -/
lemma find?_map_rowSet (row : Row) (k : String) (v : JsVal)
    (h : row.any (fun p => p.1 == k) = true) :
    (row.map (fun p => if p.1 == k then (k, v) else p)).find?
      (fun p => p.1 == k) = some (k, v) := by
  induction row with
  | nil => simp at h
  | cons p rest ih =>
    rw [List.map_cons]
    by_cases hpk : (p.1 == k) = true
    · simp [hpk, List.find?]
    · have hrest : rest.any (fun p => p.1 == k) = true := by
        rcases List.any_eq_true.mp h with ⟨q, hq, hqk⟩
        rcases List.mem_cons.mp hq with hq1 | hq2
        · exact absurd (hq1 ▸ hqk) hpk
        · exact List.any_eq_true.mpr ⟨q, hq2, hqk⟩
      have hpkf : (p.1 == k) = false := by simpa using hpk
      rw [show (if (p.1 == k) = true then (k, v) else p) = p from by
        simp [hpkf]]
      rw [List.find?_cons]
      simp only [hpkf]
      exact ih hrest

/-- reading back the key just assigned returns the assigned value. -/
lemma rowLookup_rowSet_self (row : Row) (k : String) (v : JsVal) :
    rowLookup (rowSet row k v) k = some v := by
  unfold rowSet rowLookup
  by_cases h : row.any (fun p => p.1 == k) = true
  · rw [if_pos h, find?_map_rowSet row k v h]
    rfl
  · rw [if_neg h]
    have hnone : row.find? (fun p => p.1 == k) = none := by
      apply List.find?_eq_none.mpr
      intro p hp
      intro hc
      exact h (List.any_eq_true.mpr ⟨p, hp, hc⟩)
    rw [List.find?_append, hnone]
    simp [List.find?]

/-- key order of a row built over a field list: first-occurrence
deduplicated field names, appended to the accumulator's keys. -/
lemma buildRow_keys (env : Env) (fs : List FieldDefinition) :
    ∀ (row : Row) (st : RandState),
      rowKeys (buildRow env fs row st).1 =
        dedupInto (rowKeys row) (fs.map FieldDefinition.name) := by
  induction fs with
  | nil => intro row st; rfl
  | cons f fs ih =>
    intro row st
    show rowKeys (buildRow env fs
      (rowSet row f.name (generateFieldValue env f st).1)
      (generateFieldValue env f st).2).1 = _
    rw [ih, rowKeys_rowSet]
    rfl

/-- appending a final field to the row loop assigns its value last. -/
lemma buildRow_append (env : Env) (fs : List FieldDefinition)
    (g : FieldDefinition) :
    ∀ (row : Row) (st : RandState),
      buildRow env (fs ++ [g]) row st =
        (rowSet (buildRow env fs row st).1 g.name
            (generateFieldValue env g (buildRow env fs row st).2).1,
          (generateFieldValue env g (buildRow env fs row st).2).2) := by
  induction fs with
  | nil => intro row st; rfl
  | cons f fs ih =>
    intro row st
    show buildRow env (fs ++ [g])
      (rowSet row f.name (generateFieldValue env f st).1)
      (generateFieldValue env f st).2 = _
    rw [ih]
    rfl

/-- the batch always has exactly the requested number of rows. -/
lemma genRows_length (env : Env) (fields : List FieldDefinition) :
    ∀ (n : ℕ) (st : RandState), (genRows env fields n st).1.length = n := by
  intro n
  induction n with
  | zero => intro st; rfl
  | succ m ih =>
    intro st
    show ((buildRow env fields [] st).1 ::
      (genRows env fields m (buildRow env fields [] st).2).1).length = m + 1
    rw [List.length_cons, ih]

/-- every row of a batch has the same key list: the deduplicated field
names in schema order. -/
lemma genRows_keys (env : Env) (fields : List FieldDefinition) :
    ∀ (n : ℕ) (st : RandState), ∀ row ∈ (genRows env fields n st).1,
      rowKeys row = dedupFirst (fields.map FieldDefinition.name) := by
  intro n
  induction n with
  | zero => intro st row hrow; simp [genRows] at hrow
  | succ m ih =>
    intro st row hrow
    rcases List.mem_cons.mp hrow with h1 | h2
    · rw [h1, buildRow_keys]
      rfl
    · exact ih _ row h2

/-- iteration count of an exact natural count. -/
lemma iterCount_natCast (N : ℕ) : iterCount (N : ℚ) = N := by
  unfold iterCount
  by_cases h : (N : ℚ) ≤ 0
  · have : N = 0 := by exact_mod_cast le_antisymm h (by positivity)
    rw [if_pos h, this]
  · rw [if_neg h, Int.ceil_natCast, Int.toNat_natCast]

/-- C6: a validated request with natural count `N` yields exactly `N`
rows; every row's keys are exactly the requested field names in schema
order (first occurrence kept under duplicates); and when the schema ends
in a field whose name repeats earlier ones, reading that name from the
built row returns the value generated for the LAST such field. -/
theorem batch_shape (env : Env) (req : GenerationRequest) (N : ℕ)
    (st : RandState) (hc : req.count = (N : ℚ)) (_hN : 1 ≤ N) :
    (generateMockData env req st).1.length = N ∧
    (∀ row ∈ (generateMockData env req st).1,
      rowKeys row = dedupFirst (req.fields.map FieldDefinition.name)) ∧
    (∀ (fs : List FieldDefinition) (g : FieldDefinition) (st' : RandState),
      req.fields = fs ++ [g] →
      rowLookup (buildRow env req.fields [] st').1 g.name =
        some (generateFieldValue env g (buildRow env fs [] st').2).1) := by
  refine ⟨?_, ?_, ?_⟩
  · show (genRows env req.fields (iterCount req.count) _).1.length = N
    rw [genRows_length, hc, iterCount_natCast]
  · intro row hrow
    exact genRows_keys env req.fields _ _ row hrow
  · intro fs g st' hsplit
    rw [hsplit, buildRow_append]
    exact rowLookup_rowSet_self _ _ _

/-- a two-field schema whose second field shadows the first. -/
def dupReq : GenerationRequest :=
  { fields :=
      [{ name := "x", type := "boolean" }, { name := "x", type := "word" }],
    count := 2, seed := none }

/-- witness for C6 on a concrete duplicate-name schema with count 2. -/
theorem batch_shape_witness :
    (generateMockData env0 dupReq st0).1.length = 2 ∧
    (∀ row ∈ (generateMockData env0 dupReq st0).1,
      rowKeys row = dedupFirst (dupReq.fields.map FieldDefinition.name)) ∧
    (∀ (fs : List FieldDefinition) (g : FieldDefinition) (st' : RandState),
      dupReq.fields = fs ++ [g] →
      rowLookup (buildRow env0 dupReq.fields [] st').1 g.name =
        some (generateFieldValue env0 g (buildRow env0 fs [] st').2).1) :=
  batch_shape env0 dupReq 2 st0 (by norm_num [dupReq]) (by decide)

/-- whether a field takes the enum branch, i.e. consumes from the global
`Math.random()` stream. -/
def usesGlobalRandom (f : FieldDefinition) : Bool :=
  f.type == "enum" &&
    (match f.values with
      | some vs => decide (0 < vs.length)
      | none => false)

/-- the faker-stream component of the random state. -/
def fakerPart (st : RandState) : ℚ × ℕ := (st.fakerBase, st.fakerPos)

/-- the type-switch result, with the value factored out of the state
update. -/
def tsVal (env : Env) (f : FieldDefinition) (b : ℚ) (p : ℕ) : JsVal :=
  if f.type = "string" then .vStr (env.alnum (jsOr f.length 10) b p)
  else if f.type = "number" then
    .vNum (env.fakerInt (jsOr f.min 0) (jsOr f.max 1000) b p)
  else if OTHER_HANDLED.contains f.type then env.typeOut f.type b p
  else .vStr (env.alnum 10 b p)

/-- the type switch reads only the faker components and advances the
faker position. -/
lemma typeSwitch_eq (env : Env) (f : FieldDefinition) (st : RandState) :
    typeSwitch env f st =
      (tsVal env f st.fakerBase st.fakerPos, stepFaker st) := by
  unfold typeSwitch tsVal
  split_ifs <;> rfl

/-- a field that does not take the enum branch dispatches to the
related/type-switch stage. -/
lemma gfv_no_enum (env : Env) (f : FieldDefinition) (st : RandState)
    (h : usesGlobalRandom f = false) :
    generateFieldValue env f st = afterEnum env f st := by
  unfold generateFieldValue
  cases hv : f.values with
  | none => rfl
  | some vs =>
    refine if_neg (fun hc => ?_)
    rw [usesGlobalRandom, hv] at h
    simp [hc.1, hc.2] at h

/-- equation: no `related` attribute goes straight to the type switch. -/
lemma afterEnum_none (env : Env) (f : FieldDefinition) (st : RandState)
    (h : f.related = none) : afterEnum env f st = typeSwitch env f st := by
  unfold afterEnum
  rw [h]

/-- equation: a `related` attribute goes to path resolution. -/
lemma afterEnum_some (env : Env) (f : FieldDefinition) (st : RandState)
    (rel : String) (h : f.related = some rel) :
    afterEnum env f st = resolveRelated env f rel st := by
  unfold afterEnum
  rw [h]

/-- equation: a walk ending on a callable invokes it. -/
lemma resolveRelated_leafFn (env : Env) (f : FieldDefinition)
    (rel : String) (st : RandState) (tag : String)
    (h : walkPath env.fakerRoot (splitDots rel) = .leafFn tag) :
    resolveRelated env f rel st =
      (env.fnOut tag st.fakerBase st.fakerPos, stepFaker st) := by
  unfold resolveRelated
  rw [h]

/-- equation: a walk ending on a throwing callable falls through to the
type switch. -/
lemma resolveRelated_leafFnThrows (env : Env) (f : FieldDefinition)
    (rel : String) (st : RandState) (tag : String)
    (h : walkPath env.fakerRoot (splitDots rel) = .leafFnThrows tag) :
    resolveRelated env f rel st = typeSwitch env f st := by
  unfold resolveRelated
  rw [h]

/-- equation: a walk ending on a non-callable value returns it. -/
lemma resolveRelated_leafVal (env : Env) (f : FieldDefinition)
    (rel : String) (st : RandState) (v : JsVal)
    (h : walkPath env.fakerRoot (splitDots rel) = .leafVal v) :
    resolveRelated env f rel st = (v, st) := by
  unfold resolveRelated
  rw [h]

/-- equation: a walk ending (or breaking) on an object returns that
object. -/
lemma resolveRelated_node (env : Env) (f : FieldDefinition)
    (rel : String) (st : RandState) (tag : String)
    (cs : List (String × FakerTree))
    (h : walkPath env.fakerRoot (splitDots rel) = .node tag cs) :
    resolveRelated env f rel st = (.vObj tag, st) := by
  unfold resolveRelated
  rw [h]

/-- the related/type-switch stage produces equal values and equally
evolved faker components from states agreeing on the faker
components. -/
lemma afterEnum_faker (env : Env) (f : FieldDefinition)
    (st st' : RandState) (hb : st.fakerBase = st'.fakerBase)
    (hp : st.fakerPos = st'.fakerPos) :
    (afterEnum env f st).1 = (afterEnum env f st').1 ∧
    fakerPart (afterEnum env f st).2 = fakerPart (afterEnum env f st').2 := by
  cases hr : f.related with
  | none =>
    rw [afterEnum_none env f st hr, afterEnum_none env f st' hr,
      typeSwitch_eq, typeSwitch_eq, hb, hp]
    exact ⟨rfl, by simp [fakerPart, stepFaker, hb, hp]⟩
  | some rel =>
    rw [afterEnum_some env f st rel hr, afterEnum_some env f st' rel hr]
    cases hw : walkPath env.fakerRoot (splitDots rel) with
    | leafVal v =>
      rw [resolveRelated_leafVal env f rel st v hw,
        resolveRelated_leafVal env f rel st' v hw]
      exact ⟨rfl, by simp [fakerPart, hb, hp]⟩
    | leafFn tag =>
      rw [resolveRelated_leafFn env f rel st tag hw,
        resolveRelated_leafFn env f rel st' tag hw, hb, hp]
      exact ⟨rfl, by simp [fakerPart, stepFaker, hb, hp]⟩
    | leafFnThrows tag =>
      rw [resolveRelated_leafFnThrows env f rel st tag hw,
        resolveRelated_leafFnThrows env f rel st' tag hw,
        typeSwitch_eq, typeSwitch_eq, hb, hp]
      exact ⟨rfl, by simp [fakerPart, stepFaker, hb, hp]⟩
    | node tag cs =>
      rw [resolveRelated_node env f rel st tag cs hw,
        resolveRelated_node env f rel st' tag cs hw]
      exact ⟨rfl, by simp [fakerPart, hb, hp]⟩

/-- one non-enum field generation is a function of the faker components
only. -/
lemma gfv_faker (env : Env) (f : FieldDefinition) (st st' : RandState)
    (hf : usesGlobalRandom f = false) (h : fakerPart st = fakerPart st') :
    (generateFieldValue env f st).1 = (generateFieldValue env f st').1 ∧
    fakerPart (generateFieldValue env f st).2 =
      fakerPart (generateFieldValue env f st').2 := by
  rw [gfv_no_enum env f st hf, gfv_no_enum env f st' hf]
  exact afterEnum_faker env f st st'
    (congrArg Prod.fst h) (congrArg Prod.snd h)

/-- a whole row over non-enum fields is a function of the faker
components only. -/
lemma buildRow_faker (env : Env) (fs : List FieldDefinition)
    (hf : ∀ f ∈ fs, usesGlobalRandom f = false) :
    ∀ (row : Row) (st st' : RandState),
      fakerPart st = fakerPart st' →
      (buildRow env fs row st).1 = (buildRow env fs row st').1 ∧
      fakerPart (buildRow env fs row st).2 =
        fakerPart (buildRow env fs row st').2 := by
  induction fs with
  | nil => intro row st st' h; exact ⟨rfl, h⟩
  | cons f fs ih =>
    intro row st st' h
    have hg := gfv_faker env f st st' (hf f (List.mem_cons_self f fs)) h
    show (buildRow env fs
        (rowSet row f.name (generateFieldValue env f st).1)
        (generateFieldValue env f st).2).1 =
      (buildRow env fs
        (rowSet row f.name (generateFieldValue env f st').1)
        (generateFieldValue env f st').2).1 ∧
      fakerPart (buildRow env fs
        (rowSet row f.name (generateFieldValue env f st).1)
        (generateFieldValue env f st).2).2 =
      fakerPart (buildRow env fs
        (rowSet row f.name (generateFieldValue env f st').1)
        (generateFieldValue env f st').2).2
    rw [hg.1]
    exact ih (fun g hgm => hf g (List.mem_cons_of_mem _ hgm)) _ _ _ hg.2

/-- a whole batch over non-enum fields is a function of the faker
components only. -/
lemma genRows_faker (env : Env) (fields : List FieldDefinition)
    (hf : ∀ f ∈ fields, usesGlobalRandom f = false) :
    ∀ (n : ℕ) (st st' : RandState),
      fakerPart st = fakerPart st' →
      (genRows env fields n st).1 = (genRows env fields n st').1 ∧
      fakerPart (genRows env fields n st).2 =
        fakerPart (genRows env fields n st').2 := by
  intro n
  induction n with
  | zero => intro st st' h; exact ⟨rfl, h⟩
  | succ m ih =>
    intro st st' h
    have hrow := buildRow_faker env fields hf [] st st' h
    have hrec := ih (buildRow env fields [] st).2 (buildRow env fields [] st').2
      hrow.2
    constructor
    · show (buildRow env fields [] st).1 ::
        (genRows env fields m (buildRow env fields [] st).2).1 =
        (buildRow env fields [] st').1 ::
        (genRows env fields m (buildRow env fields [] st').2).1
      rw [hrow.1, hrec.1]
    · show fakerPart
        (genRows env fields m (buildRow env fields [] st).2).2 =
        fakerPart (genRows env fields m (buildRow env fields [] st').2).2
      exact hrec.2

/-- C1 (amended): for every schema containing no enum field with a
non-empty `values` list, seeded generation is deterministic — two runs
with the same seed, fields and count produce identical row sequences no
matter what shared random state each run starts from (in particular,
running the generator twice in succession).  Enum fields are excluded
because they draw from the global `Math.random()` stream, which
`faker.seed` does not reset. -/
theorem seeded_generation_deterministic_without_enum (env : Env)
    (req : GenerationRequest) (s : ℚ) (st st' : RandState)
    (hseed : req.seed = some s)
    (hf : ∀ f ∈ req.fields, usesGlobalRandom f = false) :
    (generateMockData env req st).1 = (generateMockData env req st').1 := by
  unfold generateMockData
  rw [hseed]
  exact (genRows_faker env req.fields hf (iterCount req.count)
    (seedFaker st s) (seedFaker st' s) rfl).1

/-- a seeded single-field non-enum request. -/
def noEnumReq : GenerationRequest :=
  { fields := [{ name := "n", type := "number" }], count := 1,
    seed := some 7 }

/-- witness for C1 (amended): running the seeded non-enum request twice
in succession yields identical outputs. -/
theorem seeded_generation_deterministic_witness :
    (generateMockData env0 noEnumReq st0).1 =
    (generateMockData env0 noEnumReq
      (generateMockData env0 noEnumReq st0).2).1 :=
  seeded_generation_deterministic_without_enum env0 noEnumReq 7 st0
    (generateMockData env0 noEnumReq st0).2 rfl (by decide)

/-- `iterCount` of the literal count 1. -/
lemma iterCount_one : iterCount 1 = 1 := by
  unfold iterCount
  rw [if_neg (by norm_num)]
  norm_num

/-- an enum field over the two values "a" and "b". -/
def abEnumField : FieldDefinition :=
  { name := "r", type := "enum", values := some [.vStr "a", .vStr "b"] }

/-- the seeded single-enum-field request used to refute determinism. -/
def enumOnlyReq : GenerationRequest :=
  { fields := [abEnumField], count := 1, seed := some 5 }

/-- the random state one run of `enumOnlyReq` leaves behind. -/
def stAfter : RandState := { mathPos := 1, fakerBase := 5, fakerPos := 0 }

/-- one run of the enum-only request from any state: it consumes exactly
one global random draw at the current position. -/
lemma enumOnlyReq_run (st : RandState) :
    generateMockData env0 enumOnlyReq st =
      ([[("r", [JsVal.vStr "a", JsVal.vStr "b"].getD
          (enumIndex (env0.mathStream st.mathPos) 2) .vUndefined)]],
        { mathPos := st.mathPos + 1, fakerBase := 5, fakerPos := 0 }) := by
  have h1 : generateMockData env0 enumOnlyReq st =
      genRows env0 enumOnlyReq.fields (iterCount 1) (seedFaker st 5) := rfl
  rw [h1, iterCount_one]
  rfl

/-- the first two draws of the `env0` global stream. -/
lemma env0_mathStream_0 : env0.mathStream 0 = 0 := rfl

/-- the second draw of the `env0` global stream is one half. -/
lemma env0_mathStream_1 : env0.mathStream 1 = 1/2 := by
  norm_num [env0]

/-- enum index of the draw 0 over two values. -/
lemma enumIndex_of_zero : enumIndex 0 2 = 0 := by
  unfold enumIndex
  rw [show ((0 : ℚ) * ((2 : ℕ) : ℚ)) = 0 by norm_num]
  simp

/-- enum index of the draw one half over two values. -/
lemma enumIndex_of_half : enumIndex (1/2) 2 = 1 := by
  unfold enumIndex
  rw [show ((1/2 : ℚ) * ((2 : ℕ) : ℚ)) = 1 by push_cast; ring]
  simp

/-- counterexample to C1 as stated: under the concrete stable value
source `env0`, the seeded enum-only request generates `"a"` on a first
run and `"b"` on an immediate second run with the same seed, schema and
count — the enum pick reads the global `Math.random()` stream, whose
position the seed does not reset. -/
theorem determinism_counterexample :
    (generateMockData env0 enumOnlyReq st0).1 ≠
      (generateMockData env0 enumOnlyReq
        (generateMockData env0 enumOnlyReq st0).2).1 := by
  rw [enumOnlyReq_run st0]
  rw [show ({ mathPos := st0.mathPos + 1, fakerBase := 5, fakerPos := 0 } :
    RandState) = stAfter from rfl]
  rw [enumOnlyReq_run stAfter]
  rw [show stAfter.mathPos = st0.mathPos + 1 from rfl]
  show [[("r", [JsVal.vStr "a", JsVal.vStr "b"].getD
      (enumIndex (env0.mathStream st0.mathPos) 2) .vUndefined)]] ≠
    [[("r", [JsVal.vStr "a", JsVal.vStr "b"].getD
      (enumIndex (env0.mathStream (st0.mathPos + 1)) 2) .vUndefined)]]
  rw [show st0.mathPos = 0 from rfl]
  rw [env0_mathStream_0, env0_mathStream_1, enumIndex_of_zero,
    enumIndex_of_half]
  decide

/-- equation: validating a numeric count checks the inclusive 1..10000
range. -/
lemma validateCount_num (q : ℚ) :
    validateCount (.vNum q) =
      if 1 ≤ q ∧ q ≤ 10000 then .ok q
      else .error "count out of range" := rfl

/-- a signed natural rendered into ℚ is the cast of an integer. -/
lemma signed_nat_is_int (sign : Bool) (d : ℕ) :
    ∃ k : ℤ, JsVal.vNum (if sign then -(d : ℚ) else (d : ℚ)) =
      .vNum ((k : ℤ) : ℚ) := by
  refine ⟨if sign then -(d : ℤ) else (d : ℤ), ?_⟩
  cases sign <;> push_cast <;> rfl

/-- the digit-run stage yields NaN or an integer-valued number. -/
lemma parseIntCore_shape (sign : Bool) (ds : List Char) :
    parseIntCore sign ds = .vNaN ∨
      ∃ k : ℤ, parseIntCore sign ds = .vNum ((k : ℤ) : ℚ) := by
  unfold parseIntCore
  split
  · exact Or.inl rfl
  · exact Or.inr (signed_nat_is_int _ _)

/-- `parseInt` yields NaN or an integer-valued number, never a
fraction. -/
lemma parseIntJS_shape (s : String) :
    parseIntJS s = .vNaN ∨ ∃ k : ℤ, parseIntJS s = .vNum ((k : ℤ) : ℚ) :=
  parseIntCore_shape _ _

/-- the GET query with no parameters at all. -/
def emptyQuery : GetQuery := {}

/-- C7 (amended): count validation fails with the out-of-range error
whenever the numeric count is below 1 or above 10000 (so 0 and 10001
each produce a structured validation failure, not a crash and not a
success); an in-range count is accepted as-is; an absent count defaults
to 10 (both at the route, which substitutes the literal 10, and in the
schema); and the query-string paths coerce via `parseInt`, which yields
an integer or NaN — but the POST body path uses `Number()`, which can
keep a non-integral count (see the counterexample). -/
theorem count_coercion_and_range (q : ℚ) (s : String)
    (hq : q < 1 ∨ 10000 < q) :
    validateCount (.vNum q) = .error "count out of range" ∧
    (∀ r : ℚ, 1 ≤ r → r ≤ 10000 → validateCount (.vNum r) = .ok r) ∧
    validateCount .vUndefined = .ok 10 ∧
    getCountValue emptyQuery = .vNum 10 ∧
    (parseIntJS s = .vNaN ∨
      ∃ k : ℤ, parseIntJS s = .vNum ((k : ℤ) : ℚ)) := by
  refine ⟨?_, ?_, rfl, rfl, parseIntJS_shape s⟩
  · rw [validateCount_num, if_neg]
    rintro ⟨h1, h2⟩
    rcases hq with h | h
    · linarith
    · linarith
  · intro r h1 h2
    rw [validateCount_num, if_pos ⟨h1, h2⟩]

/-- witness for C7 (amended) at the boundary counts 0 and 10001. -/
theorem count_coercion_and_range_witness :
    validateCount (.vNum 0) = .error "count out of range" ∧
    validateCount (.vNum 10001) = .error "count out of range" ∧
    validateCount (.vNum 10) = .ok 10 :=
  ⟨(count_coercion_and_range 0 "" (Or.inl (by norm_num))).1,
    (count_coercion_and_range 10001 "" (Or.inr (by norm_num))).1,
    (count_coercion_and_range 0 "" (Or.inl (by norm_num))).2.1 10
      (by norm_num) (by norm_num)⟩

/-- a POST body carrying the non-integral count 5.5. -/
def halfCountBody : PostBody := { count := some (.vNum (11/2)) }

/-- counterexample to C7 as stated: a POST body count of 5.5 passes
through `Number()` unchanged and validates successfully — it is never
coerced to an integer. -/
theorem count_not_coerced_to_integer :
    validateCount (postCountValue (some halfCountBody) none) =
      .ok (11/2) ∧
    ∀ k : ℤ, (11/2 : ℚ) ≠ ((k : ℤ) : ℚ) := by
  constructor
  · show validateCount (.vNum (11/2)) = .ok (11/2)
    rw [validateCount_num, if_pos]
    constructor <;> norm_num
  · intro k h
    have h2 : (11 : ℚ) = 2 * (k : ℚ) := by
      field_simp at h
      linarith
    have h3 : (11 : ℤ) = 2 * k := by exact_mod_cast h2
    omega

/-- C8: every malformed caller input resolves to the structured failure
envelope rather than an unrecoverable fault, and the failure
short-circuits before any row generation: the shared random state is
returned untouched and no rows are produced.  Covered failure modes:
any pipeline error (i), unparsable `fields` JSON (ii), and a field-level
validation failure after normalization (iii). -/
theorem malformed_input_structured_error (env : Env)
    (jsonDecode : String → Option FieldsShape) (q : GetQuery)
    (st : RandState) :
    (∀ msg, getPipeline jsonDecode q = .error msg →
      getHandler env jsonDecode q st =
        (.failure "Failed to generate mock data" msg, st)) ∧
    (∀ s, q.qsFields = none → q.rawFields = some (.vStr s) →
      jsonDecode s = none →
      getHandler env jsonDecode q st =
        (.failure "Failed to generate mock data"
          "Invalid fields format. Must be a JSON array.", st)) ∧
    (∀ raw, resolveGetFields jsonDecode q = .ok raw →
      (normalizeFields raw).mapM toFieldDefinition = none →
      ∃ msg, getHandler env jsonDecode q st =
        (.failure "Failed to generate mock data" msg, st)) := by
  have hfail : ∀ msg, getPipeline jsonDecode q = .error msg →
      getHandler env jsonDecode q st =
        (.failure "Failed to generate mock data" msg, st) := by
    intro msg h
    unfold getHandler
    rw [h]
  refine ⟨hfail, ?_, ?_⟩
  · intro s hqs hraw hjson
    apply hfail
    have hres : resolveGetFields jsonDecode q =
        .error "Invalid fields format. Must be a JSON array." := by
      unfold resolveGetFields
      rw [hqs, hraw]
      have hm : (match jsonDecode s with
          | none => (Except.error "Invalid fields format. Must be a JSON array." :
              Except String (List RawField))
          | some (.arr l) => .ok l
          | some (.notArr _) =>
              .error "TypeError: fields.map is not a function") =
          .error "Invalid fields format. Must be a JSON array." := by
        rw [hjson]
      exact hm
    unfold getPipeline
    rw [hres]
    rfl
  · intro raw hres hval
    have hpipe : getPipeline jsonDecode q =
        .error "invalid field definition" := by
      unfold getPipeline
      rw [hres]
      show validateParams (normalizeFields raw) (getCountValue q)
        (getSeedValue q) = _
      unfold validateParams
      rw [hval]
    exact ⟨"invalid field definition", hfail _ hpipe⟩

/-- a JSON decoder that rejects every string. -/
def failDecode : String → Option FieldsShape := fun _ => none

/-- a GET query whose `fields` value is an unparsable string. -/
def badQuery : GetQuery := { rawFields := some (.vStr "invalid") }

/-- witness for C8: `fields=invalid` produces the structured failure
envelope and leaves the random state untouched. -/
theorem malformed_input_structured_error_witness :
    getHandler env0 failDecode badQuery st0 =
      (.failure "Failed to generate mock data"
        "Invalid fields format. Must be a JSON array.", st0) :=
  (malformed_input_structured_error env0 failDecode badQuery st0).2.1
    "invalid" rfl rfl rfl

/-- unpacking a successful field validation into its per-attribute
validators. -/
lemma toFieldDefinition_spec (f : RawField) (d : FieldDefinition)
    (h : toFieldDefinition f = some d) :
    validName f.name = some d.name ∧ validType f.type = some d.type ∧
    validOptStr f.related = some d.related ∧
    validOptValues f.values = some d.values ∧
    validOptNum f.min = some d.min ∧ validOptNum f.max = some d.max ∧
    validOptNum f.length = some d.length ∧
    validOptStr f.format = some d.format := by
  unfold toFieldDefinition at h
  cases hnm : validName f.name with
  | none => rw [hnm] at h; exact Option.noConfusion h
  | some nm =>
  rw [hnm] at h
  cases hty : validType f.type with
  | none => rw [hty] at h; exact Option.noConfusion h
  | some ty =>
  rw [hty] at h
  cases hrel : validOptStr f.related with
  | none => rw [hrel] at h; exact Option.noConfusion h
  | some rel =>
  rw [hrel] at h
  cases hvals : validOptValues f.values with
  | none => rw [hvals] at h; exact Option.noConfusion h
  | some vals =>
  rw [hvals] at h
  cases hmn : validOptNum f.min with
  | none => rw [hmn] at h; exact Option.noConfusion h
  | some mn =>
  rw [hmn] at h
  cases hmx : validOptNum f.max with
  | none => rw [hmx] at h; exact Option.noConfusion h
  | some mx =>
  rw [hmx] at h
  cases hlen : validOptNum f.length with
  | none => rw [hlen] at h; exact Option.noConfusion h
  | some len =>
  rw [hlen] at h
  cases hfmt : validOptStr f.format with
  | none => rw [hfmt] at h; exact Option.noConfusion h
  | some fmt =>
  rw [hfmt] at h
  have hd := Option.some.inj h
  subst hd
  exact ⟨rfl, rfl, rfl, rfl, rfl, rfl, rfl, rfl⟩

/-- the bracket/array query encoding of a numeric attribute: both
absent, or the original is a number and the encoded form is a non-empty
string that `Number()`-parses back to it. -/
def numAttrEnc (orig enc : Option JsVal) : Prop :=
  (orig = none ∧ enc = none) ∨
  (∃ q s, orig = some (.vNum q) ∧ enc = some (.vStr s) ∧ s ≠ "" ∧
    (JsVal.vStr s).toNumber = .vNum q)

/-- double numeric coercion of the string encoding agrees with single
coercion of the original number. -/
lemma numAttrEnc_coerce (orig enc : Option JsVal)
    (h : numAttrEnc orig enc) :
    coerceNum (coerceNum enc) = coerceNum orig := by
  rcases h with ⟨h1, h2⟩ | ⟨q, s, h1, h2, hs, hn⟩
  · rw [h1, h2]
    rfl
  · subst h1
    subst h2
    have hcs : coerceNum (some (.vStr s)) = some (.vNum q) := by
      simp [coerceNum, truthy_vStr, hs, hn]
    rw [hcs]

/-- C9 (amended): a schema submitted as JSON and its bracket/array
query-string encoding yield validated field definitions that agree on
`name`, `type`, `related`, `format`, `min`, `max` and `length` — but NOT
in general on `values`, because the bracket encoding stringifies enum
values (see the counterexample); and bracket notation is tried first:
when the array-aware parse yields an array, the JSON decoder is never
consulted. -/
theorem bracket_json_equivalence (fJ fQ : RawField)
    (dJ dQ : FieldDefinition)
    (hname : fQ.name = fJ.name) (htype : fQ.type = fJ.type)
    (hrel : fQ.related = fJ.related) (hfmt : fQ.format = fJ.format)
    (hmin : numAttrEnc fJ.min fQ.min) (hmax : numAttrEnc fJ.max fQ.max)
    (hlen : numAttrEnc fJ.length fQ.length)
    (hdJ : toFieldDefinition (normalizeField fJ) = some dJ)
    (hdQ : toFieldDefinition (normalizeField (normalizeField fQ)) =
      some dQ) :
    (dJ.name = dQ.name ∧ dJ.type = dQ.type ∧ dJ.related = dQ.related ∧
      dJ.format = dQ.format ∧ dJ.min = dQ.min ∧ dJ.max = dQ.max ∧
      dJ.length = dQ.length) ∧
    (∀ (jd jd' : String → Option FieldsShape) (g : GetQuery)
      (l : List RawField), g.qsFields = some (.arr l) →
      getPipeline jd g = getPipeline jd' g) := by
  have sJ := toFieldDefinition_spec _ _ hdJ
  have sQ := toFieldDefinition_spec _ _ hdQ
  constructor
  · have hJn : validName fJ.name = some dJ.name := sJ.1
    have hQn : validName fQ.name = some dQ.name := sQ.1
    rw [hname, hJn] at hQn
    have hJt : validType fJ.type = some dJ.type := sJ.2.1
    have hQt : validType fQ.type = some dQ.type := sQ.2.1
    rw [htype, hJt] at hQt
    have hJr : validOptStr (coerceStr fJ.related) = some dJ.related :=
      sJ.2.2.1
    have hQr : validOptStr (coerceStr (coerceStr fQ.related)) =
        some dQ.related := sQ.2.2.1
    rw [coerceStr_idem, hrel, hJr] at hQr
    have hJf : validOptStr (coerceStr fJ.format) = some dJ.format :=
      sJ.2.2.2.2.2.2.2
    have hQf : validOptStr (coerceStr (coerceStr fQ.format)) =
        some dQ.format := sQ.2.2.2.2.2.2.2
    rw [coerceStr_idem, hfmt, hJf] at hQf
    have hJm : validOptNum (coerceNum fJ.min) = some dJ.min := sJ.2.2.2.2.1
    have hQm : validOptNum (coerceNum (coerceNum fQ.min)) = some dQ.min :=
      sQ.2.2.2.2.1
    rw [numAttrEnc_coerce _ _ hmin, hJm] at hQm
    have hJx : validOptNum (coerceNum fJ.max) = some dJ.max :=
      sJ.2.2.2.2.2.1
    have hQx : validOptNum (coerceNum (coerceNum fQ.max)) = some dQ.max :=
      sQ.2.2.2.2.2.1
    rw [numAttrEnc_coerce _ _ hmax, hJx] at hQx
    have hJl : validOptNum (coerceNum fJ.length) = some dJ.length :=
      sJ.2.2.2.2.2.2.1
    have hQl : validOptNum (coerceNum (coerceNum fQ.length)) =
        some dQ.length := sQ.2.2.2.2.2.2.1
    rw [numAttrEnc_coerce _ _ hlen, hJl] at hQl
    exact ⟨Option.some.inj hQn, Option.some.inj hQt, Option.some.inj hQr,
      Option.some.inj hQf, Option.some.inj hQm, Option.some.inj hQx,
      Option.some.inj hQl⟩
  · intro jd jd' g l hq
    unfold getPipeline resolveGetFields
    rw [hq]

/-- the JSON-side raw field of the equivalence witness. -/
def jNumField : RawField :=
  { name := some (.vStr "age"), type := some (.vStr "number"),
    min := some (.vNum 5) }

/-- the bracket-notation-side raw field of the equivalence witness. -/
def qNumField : RawField :=
  { name := some (.vStr "age"), type := some (.vStr "number"),
    min := some (.vStr "5") }

/-- the validated field definition both encodings of the witness yield. -/
def ageFieldDef : FieldDefinition :=
  { name := "age", type := "number", min := some 5 }

/-- witness for C9 (amended) on a concrete number field with `min`. -/
theorem bracket_json_equivalence_witness :
    ageFieldDef.name = ageFieldDef.name ∧
    ageFieldDef.type = ageFieldDef.type ∧
    ageFieldDef.related = ageFieldDef.related ∧
    ageFieldDef.format = ageFieldDef.format ∧
    ageFieldDef.min = ageFieldDef.min ∧
    ageFieldDef.max = ageFieldDef.max ∧
    ageFieldDef.length = ageFieldDef.length :=
  (bracket_json_equivalence jNumField qNumField ageFieldDef ageFieldDef
    rfl rfl rfl rfl
    (Or.inr ⟨5, "5", rfl, rfl, by decide, by decide⟩)
    (Or.inl ⟨rfl, rfl⟩) (Or.inl ⟨rfl, rfl⟩)
    (by decide) (by decide)).1

/-- JSON-side enum field with a numeric enum value. -/
def enumRawJ : RawField :=
  { name := some (.vStr "role"), type := some (.vStr "enum"),
    values := some (.array [.vNum 1]) }

/-- bracket-notation side: qs parses every scalar as a string, so the
same enum value arrives as "1". -/
def enumRawQ : RawField :=
  { name := some (.vStr "role"), type := some (.vStr "enum"),
    values := some (.array [.vStr "1"]) }

/-- the decoder and query for the JSON-string flow of the
counterexample. -/
def jsonDecodeCex : String → Option FieldsShape :=
  fun s => if s = "J" then some (.arr [enumRawJ]) else none

/-- the GET query submitting the schema as a JSON string. -/
def jsonQueryCex : GetQuery := { rawFields := some (.vStr "J") }

/-- the GET query submitting the same schema in bracket notation. -/
def qsQueryCex : GetQuery := { qsFields := some (.arr [enumRawQ]) }

/-- the validated field the JSON flow produces: numeric enum value. -/
def roleFieldJ : FieldDefinition :=
  { name := "role", type := "enum", values := some [.vNum 1] }

/-- the validated field the bracket flow produces: string enum value. -/
def roleFieldQ : FieldDefinition :=
  { name := "role", type := "enum", values := some [.vStr "1"] }

/-- the validated request of the JSON flow. -/
def reqJcex : GenerationRequest :=
  { fields := [roleFieldJ], count := 10, seed := none }

/-- the validated request of the bracket flow. -/
def reqQcex : GenerationRequest :=
  { fields := [roleFieldQ], count := 10, seed := none }

/-- counterexample to C9 as stated: both flows validate, but the
bracket-notation flow keeps the enum value as the string "1" while the
JSON flow keeps the number 1, so the validated requests are not
structurally equivalent. -/
theorem roundtrip_counterexample :
    getPipeline jsonDecodeCex jsonQueryCex = .ok reqJcex ∧
    getPipeline failDecode qsQueryCex = .ok reqQcex ∧
    reqJcex ≠ reqQcex := by
  refine ⟨rfl, rfl, ?_⟩
  decide

end MockApi
